import Mathlib

/-!
Shallow embedding of the CRAutosScrape core (scraper field extractors,
ETL data cleaner, data validator, and full-pipeline orchestrator) and
proofs of the specification claims about them.

Python strings are modelled as `List Char`; the Python string methods
used by the code (`lower`, `strip`, `title`, `upper`, `replace`) are
modelled at ASCII precision, which covers every value the code's own
mappings and regexes manipulate.  Machine floats appearing in pandas
columns are modelled as exact rationals extended with signed infinities
and a null (NaN/None) value.
-/

namespace CRAutos

/-- Python `\s` / `str.strip` whitespace, ASCII range (space, tab,
newline, carriage return, vertical tab, form feed). -/
def isSpaceA (c : Char) : Bool :=
  c.toNat == 32 || c.toNat == 9 || c.toNat == 10 || c.toNat == 13 ||
    c.toNat == 11 || c.toNat == 12

/-- Python `str.lower` (ASCII precision). -/
def pyLower (l : List Char) : List Char := l.map Char.toLower

/-- Python `str.upper` (ASCII precision). -/
def pyUpper (l : List Char) : List Char := l.map Char.toUpper

/-- Python `str.strip` with no argument: drop whitespace from both ends. -/
def pyStrip (l : List Char) : List Char :=
  ((l.dropWhile isSpaceA).reverse.dropWhile isSpaceA).reverse

/-- Worker for `pyTitle`: `prev` records whether the previous character
was alphabetic (a "cased" character in the ASCII model). -/
def titleAux : Bool → List Char → List Char
  | _, [] => []
  | prev, c :: cs =>
    if c.isAlpha then
      (if prev then c.toLower else c.toUpper) :: titleAux true cs
    else
      c :: titleAux false cs

/-- Python `str.title` (ASCII precision): first letter of each
letter-run upper-cased, the rest lower-cased. -/
def pyTitle (l : List Char) : List Char := titleAux false l

/-- `isPrefixL pat l` : does `l` start with `pat`? -/
def isPrefixL : List Char → List Char → Bool
  | [], _ => true
  | _ :: _, [] => false
  | a :: as, b :: bs => a == b && isPrefixL as bs

/-- Worker for `replaceSub`: when `skip > 0` the current character is
part of an occurrence already replaced and is dropped. -/
def replaceGo (pat repl : List Char) : Nat → List Char → List Char
  | _, [] => []
  | Nat.succ k, _ :: cs => replaceGo pat repl k cs
  | 0, c :: cs =>
    if !pat.isEmpty && isPrefixL pat (c :: cs) then
      repl ++ replaceGo pat repl (pat.length - 1) cs
    else
      c :: replaceGo pat repl 0 cs

/-- Python `str.replace(pat, repl)` (all non-overlapping occurrences,
scanning left to right).  The patterns used by the code are nonempty;
an empty pattern is treated as matching nowhere. -/
def replaceSub (pat repl : List Char) (l : List Char) : List Char :=
  replaceGo pat repl 0 l

/-- Decimal value of a digit string (the effect of Python `int` on a
string of digits). -/
def toNum (l : List Char) : Nat := l.foldl (fun a c => a * 10 + (c.toNat - 48)) 0

/-- Shorthand: the character list of a Lean string literal. -/
def cl (s : String) : List Char := s.data

instance {ε α : Type} [DecidableEq ε] [DecidableEq α] : DecidableEq (Except ε α) := fun
  | .ok a, .ok b =>
    match decEq a b with
    | isTrue h => isTrue (h ▸ rfl)
    | isFalse h => isFalse (fun he => h (Except.ok.inj he))
  | .error a, .error b =>
    match decEq a b with
    | isTrue h => isTrue (h ▸ rfl)
    | isFalse h => isFalse (fun he => h (Except.error.inj he))
  | .ok _, .error _ => isFalse (fun he => Except.noConfusion he)
  | .error _, .ok _ => isFalse (fun he => Except.noConfusion he)

end CRAutos

namespace VehicleParser

open CRAutos

/-- `re.search`-style scan: try the pattern matcher at each start
position, left to right; the first position where it succeeds wins.
(Every pattern in the source needs at least one character, so the
empty final position never matches and is omitted.) -/
def scanM {α : Type} (f : List Char → Option α) : List Char → Option α
  | [] => none
  | c :: cs =>
    match f (c :: cs) with
    | some v => some v
    | none => scanM f cs

/-- `re.search`-style scan for patterns that consult a word boundary:
`prev` is the character just before the current start position. -/
def scanP {α : Type} (f : Option Char → List Char → Option α) :
    Option Char → List Char → Option α
  | _, [] => none
  | prev, c :: cs =>
    match f prev (c :: cs) with
    | some v => some v
    | none => scanP f (some c) cs

/-- Character class `[\d,\.]` of the price patterns. -/
def isNumTok (c : Char) : Bool := c.isDigit || c == ',' || c == '.'

/-- Matcher for `¤\s*([\d,\.]+)` (currency symbol `sym`) anchored at the
current position; returns the captured group. -/
def priceMatchAt (sym : Char) : List Char → Option (List Char)
  | [] => none
  | c :: cs =>
    if c == sym then
      let tok := (cs.dropWhile isSpaceA).takeWhile isNumTok
      if tok.isEmpty then none else some tok
    else none

/-- `re.search(r'sym\s*([\d,\.]+)', text)`. -/
def priceScan (sym : Char) (l : List Char) : Option (List Char) :=
  scanM (priceMatchAt sym) l

/-- `text.replace(',', '')`. -/
def removeCommas (l : List Char) : List Char := l.filter (fun c => !(c == ','))

/-- `int(tok.replace('.', '').replace(',', ''))`: raises `ValueError`
(modelled as `Except.error`) when nothing but separators remains. -/
def intOfToken (tok : List Char) : Except Unit Nat :=
  let ds := (tok.filter (fun c => !(c == '.'))).filter (fun c => !(c == ','))
  if ds.isEmpty then .error () else .ok (toNum ds)

/-- `VehicleParser.extract_price_colones`. -/
def extract_price_colones (text : List Char) : Except Unit (Option Nat) :=
  match priceScan '¢' (removeCommas text) with
  | some tok => (intOfToken tok).map some
  | none => .ok none

/-- `VehicleParser.extract_price_usd`. -/
def extract_price_usd (text : List Char) : Except Unit (Option Nat) :=
  match priceScan '$' (removeCommas text) with
  | some tok => (intOfToken tok).map some
  | none => .ok none

/-- Word character for `\b`: `[A-Za-z0-9_]`. -/
def isWordA (c : Char) : Bool := c.isAlphanum || c == '_'

/-- Matcher for `\b(19|20)\d{2}\b` anchored at the current position. -/
def yearMatchAt (prev : Option Char) : List Char → Option Nat
  | a :: b :: c :: d :: rest =>
    if (match prev with | none => true | some p => !isWordA p)
        && ((a == '1' && b == '9') || (a == '2' && b == '0'))
        && c.isDigit && d.isDigit
        && (match rest with | [] => true | r :: _ => !isWordA r) then
      some (toNum [a, b, c, d])
    else none
  | _ => none

/-- `VehicleParser.extract_year`. -/
def extract_year (text : List Char) : Option Nat :=
  scanP yearMatchAt none text

/-- Character class `[\s,]` of the mileage pattern. -/
def isSepKm (c : Char) : Bool := isSpaceA c || c == ','

/-- Tail of mileage pattern 1 after `k?m?s?`: `\s*km`. -/
def kmAfterOpt (l : List Char) : Bool :=
  isPrefixL (cl "km") (l.dropWhile isSpaceA)

/-- Backtracking over the optional `s?` of mileage pattern 1
(success is all that matters; the captured group is unaffected). -/
def kmTryS (l : List Char) : Bool :=
  (match l with | 's' :: r => kmAfterOpt r | _ => false) || kmAfterOpt l

/-- Backtracking over the optional `m?` of mileage pattern 1. -/
def kmTryM (l : List Char) : Bool :=
  (match l with | 'm' :: r => kmTryS r | _ => false) || kmTryS l

/-- Backtracking over the optional `k?` of mileage pattern 1. -/
def kmTryK (l : List Char) : Bool :=
  (match l with | 'k' :: r => kmTryM r | _ => false) || kmTryM l

/-- Matcher for `(\d+)[\s,]*k?m?s?\s*km` anchored at the current
position.  `(\d+)` and `[\s,]*` are forced maximal because no later
pattern element can consume a digit (resp. leave one matchable). -/
def kmMatchAt : List Char → Option Nat
  | [] => none
  | c :: cs =>
    if c.isDigit then
      let ds := (c :: cs).takeWhile Char.isDigit
      let rest := ((c :: cs).dropWhile Char.isDigit).dropWhile isSepKm
      if kmTryK rest then some (toNum ds) else none
    else none

/-- Matcher for `(\d+)[\s,]*mil` anchored at the current position. -/
def milMatchAt : List Char → Option Nat
  | [] => none
  | c :: cs =>
    if c.isDigit then
      let ds := (c :: cs).takeWhile Char.isDigit
      let rest := ((c :: cs).dropWhile Char.isDigit).dropWhile isSepKm
      if isPrefixL (cl "mil") rest then some (toNum ds) else none
    else none

/-- `VehicleParser.extract_mileage`: both branches of the source
multiply the captured number by 1000. -/
def extract_mileage (text : List Char) : Option Nat :=
  let t := pyLower text
  match scanM kmMatchAt t with
  | some n => some (n * 1000)
  | none =>
    match scanM milMatchAt t with
    | some n => some (n * 1000)
    | none => none

/-- Matcher for `(\d+)\s*c[c|m]` anchored at the current position. -/
def ccMatchAt : List Char → Option Nat
  | c :: cs =>
    if c.isDigit then
      let ds := (c :: cs).takeWhile Char.isDigit
      let rest := ((c :: cs).dropWhile Char.isDigit).dropWhile isSpaceA
      match rest with
      | 'c' :: x :: _ => if x == 'c' || x == '|' || x == 'm' then some (toNum ds) else none
      | _ => none
    else none
  | [] => none

/-- Matcher for `(\d+)\s*l` anchored at the current position. -/
def litMatchAt : List Char → Option Nat
  | c :: cs =>
    if c.isDigit then
      let ds := (c :: cs).takeWhile Char.isDigit
      let rest := ((c :: cs).dropWhile Char.isDigit).dropWhile isSpaceA
      match rest with
      | 'l' :: _ => some (toNum ds)
      | _ => none
    else none
  | [] => none

/-- `VehicleParser.extract_engine_cc`. -/
def extract_engine_cc (text : List Char) : Option Nat :=
  let t := pyLower text
  match scanM ccMatchAt t with
  | some n => some n
  | none =>
    match scanM litMatchAt t with
    | some n => some (n * 1000)
    | none => none

/-- Matcher for phone pattern `\b\d{4}-\d{4}\b`. -/
def phone1At (prev : Option Char) : List Char → Option (List Char)
  | a :: b :: c :: d :: '-' :: e :: f :: g :: h :: rest =>
    if (match prev with | none => true | some p => !isWordA p)
        && a.isDigit && b.isDigit && c.isDigit && d.isDigit
        && e.isDigit && f.isDigit && g.isDigit && h.isDigit
        && (match rest with | [] => true | r :: _ => !isWordA r) then
      some [a, b, c, d, '-', e, f, g, h]
    else none
  | _ => none

/-- Matcher for phone pattern `\b\d{8}\b`. -/
def phone2At (prev : Option Char) : List Char → Option (List Char)
  | a :: b :: c :: d :: e :: f :: g :: h :: rest =>
    if (match prev with | none => true | some p => !isWordA p)
        && a.isDigit && b.isDigit && c.isDigit && d.isDigit
        && e.isDigit && f.isDigit && g.isDigit && h.isDigit
        && (match rest with | [] => true | r :: _ => !isWordA r) then
      some [a, b, c, d, e, f, g, h]
    else none
  | _ => none

/-- Matcher for phone pattern `\+506\s*\d{8}` (no word boundaries). -/
def phone3At (_prev : Option Char) : List Char → Option (List Char)
  | '+' :: '5' :: '0' :: '6' :: rest =>
    let sp := rest.takeWhile isSpaceA
    let rest2 := rest.dropWhile isSpaceA
    if rest2.length ≥ 8 && (rest2.take 8).all Char.isDigit then
      some ('+' :: '5' :: '0' :: '6' :: (sp ++ rest2.take 8))
    else none
  | _ => none

/-- Worker for `findAllAux`: when `skip > 0` the current character
belongs to the previous match and is passed over (it still becomes the
`prev` character for word-boundary tests, as in `re`). -/
def findAllGo (m : Option Char → List Char → Option (List Char)) :
    Option Char → Nat → List Char → List (List Char)
  | _, _, [] => []
  | _, Nat.succ k, c :: cs => findAllGo m (some c) k cs
  | prev, 0, c :: cs =>
    match m prev (c :: cs) with
    | some mt => mt :: findAllGo m (some c) (mt.length - 1) cs
    | none => findAllGo m (some c) 0 cs

/-- `re.findall`: scan left to right; after a match, resume at the
first position past it (no overlapping matches). -/
def findAllAux (m : Option Char → List Char → Option (List Char))
    (prev : Option Char) (l : List Char) : List (List Char) :=
  findAllGo m prev 0 l

/-- `VehicleParser.extract_phone_numbers`: the three patterns'
`findall` results, deduplicated.  The source builds `list(set(...))`,
whose order is unspecified; the model keeps first occurrences. -/
def extract_phone_numbers (text : List Char) : List (List Char) :=
  (findAllAux phone1At none text ++ findAllAux phone2At none text ++
    findAllAux phone3At none text).eraseDups

end VehicleParser

namespace CRAutos

/-- A pandas cell: a string, a (float, modelled exactly) rational
number, a boolean, a signed infinity (float `inf`, arising only from
division by zero), or null (`None`/`NaN`). -/
inductive CVal where
  | s (v : List Char)
  | n (v : ℚ)
  | b (v : Bool)
  | inf
  | ninf
  | null
deriving DecidableEq, Repr

/-- A pandas DataFrame, column-oriented: association list from column
name to cell list.  Well-formed frames have equal column lengths. -/
abbrev Batch := List (String × List CVal)

/-- `c in df.columns`. -/
def hasCol : Batch → String → Bool
  | [], _ => false
  | p :: t, c => p.1 == c || hasCol t c

/-- `df[c]` for a present column; `[]` when absent (the code guards
every column access it performs, except where noted). -/
def getCol : Batch → String → List CVal
  | [], _ => []
  | p :: t, c => if p.1 == c then p.2 else getCol t c

/-- Worker for `setCol`: overwrite the cells of column `c` in place. -/
def putCol : Batch → String → List CVal → Batch
  | [], _, _ => []
  | p :: t, c, v => (if p.1 == c then (p.1, v) else p) :: putCol t c v

/-- `df[c] = v`: overwrite in place, or append a new column at the end
as pandas does. -/
def setCol (df : Batch) (c : String) (v : List CVal) : Batch :=
  if hasCol df c then putCol df c v else df ++ [(c, v)]

/-- `df.drop(columns=[...])` restricted to present columns. -/
def dropCols (df : Batch) (cs : List String) : Batch :=
  df.filter (fun p => !(cs.contains p.1))

/-- `len(df)`: number of rows. -/
def numRows (df : Batch) : Nat :=
  match df with
  | [] => 0
  | p :: _ => p.2.length

/-- The pandas `.str` accessor: applies `f` to string cells and turns
every non-string cell (including null) into null (NaN). -/
def strMap (f : List Char → List Char) : CVal → CVal
  | .s v => .s (f v)
  | _ => .null

/-- Exact-value lookup of `Series.replace(mapping)` at string level:
the first mapping pair whose key equals the value, else the value. -/
def aliasVal (m : List (List Char × List Char)) (w : List Char) : List Char :=
  match m.find? (fun p => p.1 == w) with
  | some p => p.2
  | none => w

/-- `Series.replace(mapping)`: exact-value replacement on string cells,
all other cells unchanged. -/
def replaceExact (m : List (List Char × List Char)) : CVal → CVal
  | .s v => .s (aliasVal m v)
  | c => c

/-- `Series.replace('', None)`. -/
def emptyToNull : CVal → CVal
  | .s [] => .null
  | c => c

/-- `cell < q` as pandas evaluates it: null (NaN) compares `False`;
`-inf < q` is `True`.  Non-numeric cells are outside the modelled
domain (pandas would raise `TypeError`). -/
def ltN (c : CVal) (q : ℚ) : Bool :=
  match c with
  | .n v => decide (v < q)
  | .ninf => true
  | _ => false

/-- `cell > q` as pandas evaluates it: null compares `False`,
`inf > q` is `True`. -/
def gtN (c : CVal) (q : ℚ) : Bool :=
  match c with
  | .n v => decide (q < v)
  | .inf => true
  | _ => false

/-- `cell == q` as pandas evaluates it: null compares `False`. -/
def eqN (c : CVal) (q : ℚ) : Bool :=
  match c with
  | .n v => v == q
  | _ => false

/-- Float division of two cells, IEEE style: `x/0` is a signed
infinity for `x ≠ 0` and NaN for `x = 0`; null (NaN) propagates.
Non-numeric cells are outside the modelled domain. -/
def divN (a b : CVal) : CVal :=
  match a, b with
  | .n x, .n y =>
    if y == 0 then (if 0 < x then .inf else if x < 0 then .ninf else .null)
    else .n (x / y)
  | _, _ => .null

/-- `scalar - cell` (floats): null propagates. -/
def subFromScalar (q : ℚ) : CVal → CVal
  | .n v => .n (q - v)
  | _ => .null

/-- `cell + scalar` (floats): null propagates. -/
def addScalar (q : ℚ) : CVal → CVal
  | .n v => .n (v + q)
  | _ => .null

/-- `Series.isin(xs)`: null is not a member, so maps to `False`. -/
def isinCell (xs : List (List Char)) : CVal → CVal
  | .s v => .b (xs.contains v)
  | _ => .b false

/-- The modelled domain of a numeric pandas column: numbers and nulls
(string cells would make the source's comparisons raise `TypeError`). -/
def isNumOrNull : CVal → Bool
  | .n _ => true
  | .null => true
  | _ => false

end CRAutos

namespace DataCleaner

open CRAutos

/-- `DataCleaner.brand_mapping`. -/
def brand_mapping : List (List Char × List Char) :=
  [(cl "bmw", cl "BMW"),
   (cl "mercedes", cl "Mercedes-Benz"),
   (cl "mercedes benz", cl "Mercedes-Benz"),
   (cl "volkswagen", cl "Volkswagen"),
   (cl "vw", cl "Volkswagen")]

/-- `DataCleaner._remove_empty_columns`. -/
def remove_empty_columns (df : Batch) : Batch :=
  dropCols df ["doors", "style", "location", "province", "features"]

/-- The brand value transform of `DataCleaner._clean_brands`:
`.str.lower().str.strip()`, then `.replace(brand_mapping)`, then
`.str.title()`. -/
def cleanBrandCell (c : CVal) : CVal :=
  strMap pyTitle (replaceExact brand_mapping (strMap (fun v => pyStrip (pyLower v)) c))

/-- `DataCleaner._clean_brands`. -/
def clean_brands (df : Batch) : Batch :=
  if hasCol df "brand" then setCol df "brand" ((getCol df "brand").map cleanBrandCell)
  else df

/-- The masked assignment of `DataCleaner._clean_models`: rows whose
brand equals `'Mercedes-Benz'` get `'BENZ '` stripped from the model. -/
def benzMask (brandCol modelCol : List CVal) : List CVal :=
  List.zipWith
    (fun bc mc =>
      if bc == CVal.s (cl "Mercedes-Benz") then strMap (replaceSub (cl "BENZ ") []) mc
      else mc)
    brandCol modelCol

/-- `DataCleaner._clean_models`.  The masked assignment reads
`df['brand']` unconditionally, so a frame with a `model` column but no
`brand` column raises `KeyError`. -/
def clean_models (df : Batch) : Except String Batch :=
  if hasCol df "model" then
    let col := (getCol df "model").map emptyToNull
    let col := col.map (strMap (fun v => pyUpper (pyStrip v)))
    if hasCol df "brand" then
      .ok (setCol df "model" (benzMask (getCol df "brand") col))
    else .error "KeyError: brand"
  else .ok df

/-- The fuel-type mapping of `DataCleaner._clean_fuel_types`. -/
def fuel_mapping : List (List Char × List Char) :=
  [(cl "gasolina", cl "Gasoline"),
   (cl "diesel", cl "Diesel"),
   (cl "híbrido", cl "Hybrid"),
   (cl "hibrido", cl "Hybrid")]

/-- `DataCleaner._clean_fuel_types`: `replace('', None)`, then
`.str.lower()`, then `.replace(fuel_mapping)`. -/
def clean_fuel_types (df : Batch) : Batch :=
  if hasCol df "fuel_type" then
    let col := (getCol df "fuel_type").map emptyToNull
    let col := col.map (strMap pyLower)
    setCol df "fuel_type" (col.map (replaceExact fuel_mapping))
  else df

/-- The year cell transform of `DataCleaner._clean_years`. -/
def cleanYearCell (c : CVal) : CVal :=
  if ltN c 1950 || gtN c 2026 then .null else c

/-- `DataCleaner._clean_years`. -/
def clean_years (df : Batch) : Batch :=
  if hasCol df "year" then setCol df "year" ((getCol df "year").map cleanYearCell)
  else df

/-- The mileage cell transform of `DataCleaner._clean_mileage`: first
null values `> 500000`, then null values `== 0`. -/
def cleanMileageCell (c : CVal) : CVal :=
  let c1 := if gtN c 500000 then .null else c
  if eqN c1 0 then .null else c1

/-- `DataCleaner._clean_mileage`. -/
def clean_mileage (df : Batch) : Batch :=
  if hasCol df "mileage" then setCol df "mileage" ((getCol df "mileage").map cleanMileageCell)
  else df

/-- The engine-displacement cell transform of
`DataCleaner._clean_engine_cc`. -/
def cleanEngineCell (c : CVal) : CVal :=
  if ltN c 500 || gtN c 6000 then .null else c

/-- `DataCleaner._clean_engine_cc`. -/
def clean_engine_cc (df : Batch) : Batch :=
  if hasCol df "engine_cc" then
    setCol df "engine_cc" ((getCol df "engine_cc").map cleanEngineCell)
  else df

/-- The color mapping of `DataCleaner._clean_colors`; the replacement
values are the English names lower-cased, as in the source. -/
def color_mapping : List (List Char × List Char) :=
  [(cl "negro", cl "black"),
   (cl "blanco", cl "white"),
   (cl "gris", cl "gray"),
   (cl "azul", cl "blue"),
   (cl "rojo", cl "red"),
   (cl "plateado", cl "silver"),
   (cl "café", cl "brown"),
   (cl "vino", cl "burgundy")]

/-- The per-column transform of `DataCleaner._clean_colors`:
`.str.lower().str.strip()`, then one substring `str.replace` per
mapping pair, then `.str.title()`. -/
def cleanColorCol (col : List CVal) : List CVal :=
  let col := col.map (strMap (fun v => pyStrip (pyLower v)))
  let col := color_mapping.foldl (fun acc p => acc.map (strMap (replaceSub p.1 p.2))) col
  col.map (strMap pyTitle)

/-- `DataCleaner._clean_colors`. -/
def clean_colors (df : Batch) : Batch :=
  ["color_exterior", "color_interior"].foldl
    (fun df c => if hasCol df c then setCol df c (cleanColorCol (getCol df c)) else df)
    df

/-- `DataCleaner._validate_prices`: when both price columns are
present, add `exchange_rate = price_colones / price_usd` and
`price_flag = (rate < 400) | (rate > 600)` for every row. -/
def validate_prices (df : Batch) : Batch :=
  if hasCol df "price_colones" && hasCol df "price_usd" then
    let rate := List.zipWith divN (getCol df "price_colones") (getCol df "price_usd")
    let df := setCol df "exchange_rate" rate
    setCol df "price_flag" (rate.map (fun c => CVal.b (ltN c 400 || gtN c 600)))
  else df

/-- `DataCleaner._clean_phone_numbers`: strip every character that is
not a digit or a hyphen (`re [^\d-]`). -/
def clean_phone_numbers (df : Batch) : Batch :=
  if hasCol df "seller_phone" then
    setCol df "seller_phone"
      ((getCol df "seller_phone").map
        (strMap (fun v => v.filter (fun c => c.isDigit || c == '-'))))
  else df

/-- The luxury-brand list of `DataCleaner._add_derived_features`. -/
def luxury_brands : List (List Char) :=
  [cl "BMW", cl "Mercedes-Benz", cl "Audi", cl "Porsche", cl "Lexus",
   cl "Jaguar", cl "Land Rover"]

/-- `DataCleaner._add_derived_features`.  `refYear` stands for
`pd.Timestamp.now().year`, a parameter of the model. -/
def add_derived_features (refYear : ℚ) (df : Batch) : Batch :=
  let df :=
    if hasCol df "year" then
      setCol df "vehicle_age" ((getCol df "year").map (subFromScalar refYear))
    else df
  let df :=
    if hasCol df "price_usd" && hasCol df "vehicle_age" then
      setCol df "price_per_year"
        (List.zipWith divN (getCol df "price_usd")
          ((getCol df "vehicle_age").map (addScalar 1)))
    else df
  if hasCol df "brand" then
    setCol df "is_luxury" ((getCol df "brand").map (isinCell luxury_brands))
  else df

/-- `DataCleaner.clean_data`: the full transformation pipeline, in
source order (a `KeyError` from `_clean_models` propagates). -/
def clean_data (refYear : ℚ) (df : Batch) : Except String Batch :=
  (clean_models (clean_brands (remove_empty_columns df))).map fun df =>
    add_derived_features refYear
      (clean_phone_numbers
        (validate_prices
          (clean_colors
            (clean_engine_cc
              (clean_mileage
                (clean_years
                  (clean_fuel_types df)))))))

end DataCleaner

namespace DataValidator

open CRAutos

/-- The validation report dictionary built by
`DataValidator.validate_data`. -/
structure Report where
  total_records : Nat
  validation_errors : List String
  warnings : List String
  passed_validation : Bool
deriving DecidableEq, Repr

/-- The required-field list of `DataValidator.validate_data`. -/
def required_fields : List String :=
  ["url", "vehicle_id", "brand", "price_usd", "price_colones"]

/-- `df[f].isnull().sum()`. -/
def nullCount (col : List CVal) : Nat :=
  (col.filter (fun c => c == CVal.null)).length

/-- One iteration of the required-field loop: a missing column appends
an error and clears the pass flag; nulls in a present column append a
warning only. -/
def reqStep (df : Batch) (r : Report) (f : String) : Report :=
  if !hasCol df f then
    { r with
      validation_errors := r.validation_errors ++ ["Missing required field: " ++ f]
      passed_validation := false }
  else if 0 < nullCount (getCol df f) then
    { r with
      warnings := r.warnings ++
        [f ++ " has " ++ toString (nullCount (getCol df f)) ++ " null values"] }
  else r

/-- `self.validation_rules`, in dictionary insertion order. -/
def validation_rules : List (String × ℚ × ℚ) :=
  [("year", 1950, 2026),
   ("price_usd", 1000, 500000),
   ("price_colones", 500000, 250000000),
   ("mileage", 0, 500000),
   ("engine_cc", 500, 6000),
   ("exchange_rate", 400, 600)]

/-- `DataValidator._validate_numeric_range`: count non-null cells
outside `[mn, mx]`. -/
def countInvalidRange (col : List CVal) (mn mx : ℚ) : Nat :=
  ((col.filter (fun c => !(c == CVal.null))).filter
    (fun c => ltN c mn || gtN c mx)).length

/-- One iteration of the numeric-range loop: a positive out-of-range
count appends a warning. -/
def rangeStep (df : Batch) (r : Report) (p : String × ℚ × ℚ) : Report :=
  if hasCol df p.1 then
    let ic := countInvalidRange (getCol df p.1) p.2.1 p.2.2
    if 0 < ic then
      { r with warnings := r.warnings ++
          [p.1 ++ " has " ++ toString ic ++ " values outside valid range"] }
    else r
  else r

/-- `df['vehicle_id'].duplicated().sum()`: occurrences after the first
of each value (pandas treats equal nulls as duplicates too). -/
def duplicatedCount (col : List CVal) : Nat :=
  col.length - col.eraseDups.length

/-- The duplicate-check step. -/
def dupStep (df : Batch) (r : Report) : Report :=
  if hasCol df "vehicle_id" then
    let dc := duplicatedCount (getCol df "vehicle_id")
    if 0 < dc then
      { r with warnings := r.warnings ++
          ["Found " ++ toString dc ++ " duplicate vehicle IDs"] }
    else r
  else r

/-- `DataValidator._validate_price_consistency`: among rows with both
prices positive, count exchange rates outside `[400, 600]`. -/
def priceInconsistCount (df : Batch) : Nat :=
  if hasCol df "price_usd" && hasCol df "price_colones" then
    let pairs := List.zip (getCol df "price_colones") (getCol df "price_usd")
    let valid := pairs.filter (fun p => gtN p.2 0 && gtN p.1 0)
    if valid.isEmpty then 0
    else
      ((valid.map (fun p => divN p.1 p.2)).filter
        (fun r => ltN r 400 || gtN r 600)).length
  else 0

/-- The price-consistency step of `validate_data`. -/
def priceStep (df : Batch) (r : Report) : Report :=
  if hasCol df "price_usd" && hasCol df "price_colones" then
    let ip := priceInconsistCount df
    if 0 < ip then
      { r with warnings := r.warnings ++
          [toString ip ++ " records have inconsistent USD/Colones prices"] }
    else r
  else r

/-- `DataValidator.validate_data`.  The source method reads `df` but
never assigns into it; the state-passing embedding therefore returns
the frame it was given alongside the report. -/
def validate_data (df : Batch) : Report × Batch :=
  let report : Report :=
    { total_records := numRows df
      validation_errors := []
      warnings := []
      passed_validation := true }
  let report := required_fields.foldl (reqStep df) report
  let report := validation_rules.foldl (rangeStep df) report
  let report := dupStep df report
  let report := priceStep df report
  (report, df)

end DataValidator

namespace VehicleETLPipeline

open CRAutos DataValidator

/-- Observable outcome of one `run_full_pipeline` call: which stages
ran, the two validation reports, and the terminal exception if any. -/
structure Trace where
  early_return : Bool
  raw_report : Option Report
  cleaned : Bool
  clean_report : Option Report
  loaded : Bool
  stats_ok : Bool
  failed : Option String
deriving DecidableEq, Repr

/-- Columns referenced by the SQL of
`CleanDataLoader.get_data_quality_stats`; the loaded table has exactly
the cleaned frame's columns (`to_sql(..., if_exists='replace')`), so a
missing one raises an `OperationalError` in the stats stage. -/
def stats_columns : List String :=
  ["model", "year", "mileage", "fuel_type", "engine_cc", "price_flag", "brand"]

/-- `VehicleETLPipeline.run_full_pipeline`, with the extraction result
`raw` and the clock year `refYear` as parameters.  Logging calls
(including `log_validation_report`, which only logs the report) have no
observable effect and are omitted.  `load_clean_data` rebuilds the
table from the frame's own columns and cannot fail on column shape. -/
def run_full_pipeline (refYear : ℚ) (raw : Batch) : Trace :=
  if numRows raw == 0 then
    { early_return := true, raw_report := none, cleaned := false,
      clean_report := none, loaded := false, stats_ok := false, failed := none }
  else
    let vr := (validate_data raw).1
    match DataCleaner.clean_data refYear raw with
    | .error e =>
      { early_return := false, raw_report := some vr, cleaned := false,
        clean_report := none, loaded := false, stats_ok := false, failed := some e }
    | .ok clean =>
      let cvr := (validate_data clean).1
      let ok := stats_columns.all (fun c => hasCol clean c)
      { early_return := false, raw_report := some vr, cleaned := true,
        clean_report := some cvr, loaded := true, stats_ok := ok,
        failed := if ok then none else some "OperationalError: no such column" }

end VehicleETLPipeline

namespace Fixtures

open CRAutos

/-- A raw batch that fails pre-clean validation (no `url` column) while
every column consulted by the quality-stats SQL survives cleaning.  The
prices exercise the division-by-zero path. -/
def rawNoUrl : Batch :=
  [("vehicle_id", [CVal.s (cl "v1")]), ("brand", [CVal.s (cl "toyota")]),
   ("model", [CVal.s (cl "corolla")]), ("year", [CVal.null]),
   ("mileage", [CVal.n 100]), ("fuel_type", [CVal.s (cl "diesel")]),
   ("engine_cc", [CVal.n 1500]), ("price_usd", [CVal.n 0]),
   ("price_colones", [CVal.n 1])]

/-- A batch with all five required columns present. -/
def reqFull : Batch :=
  [("url", [CVal.s (cl "u")]), ("vehicle_id", [CVal.s (cl "v")]),
   ("brand", [CVal.s (cl "toyota")]), ("price_usd", [CVal.n 0]),
   ("price_colones", [CVal.n 0])]

/-- Input batch for the range-nulling witness. -/
def c3df : Batch :=
  [("year", [CVal.n 1920, CVal.null]), ("mileage", [CVal.n 600000, CVal.n 100]),
   ("engine_cc", [CVal.n 100, CVal.n 1500])]

/-- The cleaned form of `c3df`. -/
def c3out : Batch :=
  [("year", [CVal.null, CVal.null]), ("mileage", [CVal.null, CVal.n 100]),
   ("engine_cc", [CVal.null, CVal.n 1500]), ("vehicle_age", [CVal.null, CVal.null])]

/-- Input batch for the brand-idempotence witness. -/
def c4df : Batch :=
  [("fuel_type", [CVal.s (cl "gasolina")]), ("brand", [CVal.s (cl "bmw")])]

/-- The cleaned form of `c4df`. -/
def c4out1 : Batch :=
  [("fuel_type", [CVal.s (cl "Gasoline")]), ("brand", [CVal.s (cl "Bmw")]),
   ("is_luxury", [CVal.b false])]

/-- The cleaned form of `c4out1` (the fuel label is down-cased again,
the brand is stable). -/
def c4out2 : Batch :=
  [("fuel_type", [CVal.s (cl "gasoline")]), ("brand", [CVal.s (cl "Bmw")]),
   ("is_luxury", [CVal.b false])]

/-- Price columns exercising null and zero-divisor rows. -/
def c10df : Batch :=
  [("price_colones", [CVal.null, CVal.n 5, CVal.n 1]),
   ("price_usd", [CVal.n 3, CVal.null, CVal.n 0])]

end Fixtures

namespace CRAutos

/-! ### Character-level lemmas -/

theorem toNat_ofNat_lt {n : Nat} (h : n < 55296) : (Char.ofNat n).toNat = n := by
  have hv : n.isValidChar := Or.inl h
  unfold Char.ofNat
  rw [dif_pos hv]
  rfl

theorem ofNat_toNat_self (c : Char) (h : c.toNat < 55296) : Char.ofNat c.toNat = c := by
  apply Char.eq_of_val_eq
  apply UInt32.toNat.inj
  exact toNat_ofNat_lt h

theorem toLower_toLower (c : Char) : c.toLower.toLower = c.toLower := by
  unfold Char.toLower
  by_cases h : c.toNat ≥ 65 ∧ c.toNat ≤ 90
  · rw [if_pos h, toNat_ofNat_lt (by omega), if_neg (by omega)]
  · rw [if_neg h, if_neg h]

theorem toLower_toUpper (c : Char) : c.toUpper.toLower = c.toLower := by
  unfold Char.toLower Char.toUpper
  by_cases h : c.toNat ≥ 97 ∧ c.toNat ≤ 122
  · rw [if_pos h, toNat_ofNat_lt (by omega), if_pos (by omega), if_neg (by omega)]
    have h2 : c.toNat - 32 + 32 = c.toNat := by omega
    rw [h2]
    exact ofNat_toNat_self c (by omega)
  · rw [if_neg h]

theorem isSpaceA_toLower (c : Char) : isSpaceA c.toLower = isSpaceA c := by
  unfold Char.toLower isSpaceA
  by_cases h : c.toNat ≥ 65 ∧ c.toNat ≤ 90
  · rw [if_pos h, toNat_ofNat_lt (by omega), Bool.eq_iff_iff]
    simp only [Bool.or_eq_true, Nat.beq_eq_true_eq]
    omega
  · rw [if_neg h]

/-! ### String-level lemmas -/

theorem pyLower_titleAux (p : Bool) (l : List Char) :
    pyLower (titleAux p l) = pyLower l := by
  induction l generalizing p with
  | nil => rfl
  | cons c cs ih =>
    unfold titleAux
    by_cases h : c.isAlpha
    · rw [if_pos h]
      by_cases hp : p
      · simp only [if_pos hp, pyLower, List.map_cons]
        rw [toLower_toLower]
        exact congrArg _ (ih true)
      · simp only [if_neg hp, pyLower, List.map_cons]
        rw [toLower_toUpper]
        exact congrArg _ (ih true)
    · rw [if_neg h]
      simp only [pyLower, List.map_cons]
      exact congrArg _ (ih false)

theorem pyLower_pyTitle (l : List Char) : pyLower (pyTitle l) = pyLower l :=
  pyLower_titleAux false l

theorem pyLower_pyLower (l : List Char) : pyLower (pyLower l) = pyLower l := by
  simp only [pyLower, List.map_map]
  apply List.map_congr_left
  intro c _
  exact toLower_toLower c

theorem head_dropWhile_false (p : Char → Bool) :
    ∀ (l : List Char) (c : Char), (l.dropWhile p).head? = some c → p c = false := by
  intro l
  induction l with
  | nil => intro c h; simp [List.dropWhile] at h
  | cons x xs ih =>
    intro c h
    by_cases hx : p x
    · rw [List.dropWhile_cons_of_pos hx] at h
      exact ih c h
    · rw [List.dropWhile_cons_of_neg hx] at h
      simp only [List.head?_cons, Option.some.injEq] at h
      rw [← h]
      exact Bool.of_not_eq_true hx

theorem dropWhile_dropWhile (p : Char → Bool) (l : List Char) :
    (l.dropWhile p).dropWhile p = l.dropWhile p := by
  cases hX : l.dropWhile p with
  | nil => rfl
  | cons c cs =>
    have hc : p c = false := by
      apply head_dropWhile_false p l
      rw [hX]
      rfl
    rw [List.dropWhile_cons_of_neg (by rw [hc]; simp)]

theorem dropWhile_append_singleton (p : Char → Bool) (c : Char) (hc : p c = false) :
    ∀ xs : List Char, (xs ++ [c]).dropWhile p = xs.dropWhile p ++ [c] := by
  intro xs
  induction xs with
  | nil =>
    simp only [List.nil_append, List.dropWhile_nil]
    rw [List.dropWhile_cons_of_neg (by rw [hc]; simp)]
  | cons x xs ih =>
    by_cases hx : p x
    · rw [List.cons_append, List.dropWhile_cons_of_pos hx, List.dropWhile_cons_of_pos hx]
      exact ih
    · rw [List.cons_append, List.dropWhile_cons_of_neg hx, List.dropWhile_cons_of_neg hx,
        List.cons_append]

theorem pyStrip_front_clean (l : List Char) (hl : l.dropWhile isSpaceA = l) :
    ((l.reverse.dropWhile isSpaceA).reverse).dropWhile isSpaceA =
      (l.reverse.dropWhile isSpaceA).reverse := by
  cases l with
  | nil => rfl
  | cons c cs =>
    have hc : isSpaceA c = false := by
      by_cases h : isSpaceA c
      · rw [List.dropWhile_cons_of_pos h] at hl
        have : isSpaceA c = false := by
          apply head_dropWhile_false isSpaceA cs
          rw [hl]
          rfl
        rw [this] at h
        exact absurd h (by simp)
      · exact Bool.of_not_eq_true h
    rw [List.reverse_cons, dropWhile_append_singleton isSpaceA c hc, List.reverse_append]
    simp only [List.reverse_cons, List.reverse_nil, List.nil_append, List.singleton_append]
    rw [List.dropWhile_cons_of_neg (by rw [hc]; simp)]

theorem pyStrip_pyStrip (l : List Char) : pyStrip (pyStrip l) = pyStrip l := by
  unfold pyStrip
  rw [pyStrip_front_clean (l.dropWhile isSpaceA) (dropWhile_dropWhile isSpaceA l)]
  rw [List.reverse_reverse, dropWhile_dropWhile]

theorem isSpaceA_comp_toLower : (isSpaceA ∘ Char.toLower) = isSpaceA := by
  funext c
  exact isSpaceA_toLower c

theorem dropWhile_pyLower (l : List Char) :
    (pyLower l).dropWhile isSpaceA = pyLower (l.dropWhile isSpaceA) := by
  unfold pyLower
  rw [List.dropWhile_map, isSpaceA_comp_toLower]

theorem pyStrip_pyLower (l : List Char) : pyStrip (pyLower l) = pyLower (pyStrip l) := by
  unfold pyStrip
  rw [dropWhile_pyLower]
  unfold pyLower
  rw [← List.map_reverse, List.dropWhile_map, isSpaceA_comp_toLower, ← List.map_reverse]

/-! ### Batch plumbing lemmas -/

theorem getCol_absent (df : Batch) (c : String) (h : hasCol df c = false) :
    getCol df c = [] := by
  induction df with
  | nil => rfl
  | cons p t ih =>
    unfold hasCol at h
    rw [Bool.or_eq_false_iff] at h
    unfold getCol
    rw [if_neg (by simp [h.1])]
    exact ih h.2

theorem getCol_putCol_self (df : Batch) (c : String) (v : List CVal)
    (h : hasCol df c = true) : getCol (putCol df c v) c = v := by
  induction df with
  | nil => simp [hasCol] at h
  | cons p t ih =>
    unfold hasCol at h
    unfold putCol getCol
    by_cases hp : p.1 == c
    · rw [if_pos hp]
      simp only [hp, if_pos]
    · rw [if_neg hp, if_neg (by simp_all)]
      apply ih
      simp only [Bool.or_eq_true] at h
      rcases h with h | h
      · exact absurd h hp
      · exact h

theorem getCol_append_single_self (df : Batch) (c : String) (v : List CVal)
    (h : hasCol df c = false) : getCol (df ++ [(c, v)]) c = v := by
  induction df with
  | nil => simp [getCol]
  | cons p t ih =>
    unfold hasCol at h
    rw [Bool.or_eq_false_iff] at h
    rw [List.cons_append]
    unfold getCol
    rw [if_neg (by simp [h.1])]
    exact ih h.2

theorem getCol_setCol_self (df : Batch) (c : String) (v : List CVal) :
    getCol (setCol df c v) c = v := by
  unfold setCol
  by_cases h : hasCol df c
  · rw [if_pos h]
    exact getCol_putCol_self df c v h
  · rw [if_neg h]
    exact getCol_append_single_self df c v (Bool.of_not_eq_true h)

theorem getCol_putCol_ne (df : Batch) (c c' : String) (v : List CVal)
    (h : c' ≠ c) : getCol (putCol df c v) c' = getCol df c' := by
  have hcc : ¬ c = c' := fun he => h he.symm
  induction df with
  | nil => rfl
  | cons p t ih =>
    unfold putCol getCol
    by_cases hp : p.1 == c
    · have hpc : p.1 = c := by simpa using hp
      rw [if_pos hp]
      have hne : ¬(p.1 == c') = true := by simp [hpc, hcc]
      simp only [if_neg hne]
      exact ih
    · rw [if_neg hp]
      by_cases hc : p.1 == c'
      · simp only [if_pos hc]
      · simp only [if_neg hc]
        exact ih

theorem getCol_append_single_ne (df : Batch) (c c' : String) (v : List CVal)
    (h : c' ≠ c) : getCol (df ++ [(c, v)]) c' = getCol df c' := by
  have hcc : ¬ c = c' := fun he => h he.symm
  induction df with
  | nil =>
    simp only [List.nil_append]
    unfold getCol
    rw [if_neg (by simp [hcc])]
    rfl
  | cons p t ih =>
    rw [List.cons_append]
    unfold getCol
    by_cases hp : p.1 == c'
    · simp only [if_pos hp]
    · simp only [if_neg hp]
      exact ih

theorem getCol_setCol_ne (df : Batch) (c c' : String) (v : List CVal)
    (h : c' ≠ c) : getCol (setCol df c v) c' = getCol df c' := by
  unfold setCol
  by_cases hc : hasCol df c
  · rw [if_pos hc]
    exact getCol_putCol_ne df c c' v h
  · rw [if_neg hc]
    exact getCol_append_single_ne df c c' v h

theorem hasCol_putCol (df : Batch) (c c' : String) (v : List CVal) :
    hasCol (putCol df c v) c' = hasCol df c' := by
  induction df with
  | nil => rfl
  | cons p t ih =>
    unfold putCol hasCol
    by_cases hp : p.1 == c
    · rw [if_pos hp]
      simp only [ih]
    · rw [if_neg hp]
      simp only [ih]

theorem hasCol_append (a b : Batch) (c : String) :
    hasCol (a ++ b) c = (hasCol a c || hasCol b c) := by
  induction a with
  | nil => rfl
  | cons p t ih =>
    rw [List.cons_append]
    simp only [hasCol]
    rw [ih, Bool.or_assoc]

theorem hasCol_setCol (df : Batch) (c c' : String) (v : List CVal) :
    hasCol (setCol df c v) c' = (hasCol df c' || c == c') := by
  unfold setCol
  by_cases h : hasCol df c
  · rw [if_pos h, hasCol_putCol]
    by_cases he : c == c'
    · have hcc : c = c' := by simpa using he
      rw [he, Bool.or_true]
      subst hcc
      exact h
    · have he' : (c == c') = false := by simpa using he
      rw [he', Bool.or_false]
  · rw [if_neg h, hasCol_append]
    have : hasCol [(c, v)] c' = (c == c') := by
      unfold hasCol
      exact Bool.or_false _
    rw [this]

theorem hasCol_dropCols (df : Batch) (cs : List String) (c : String)
    (h : cs.contains c = false) : hasCol (dropCols df cs) c = hasCol df c := by
  induction df with
  | nil => rfl
  | cons p t ih =>
    unfold dropCols at *
    by_cases hk : cs.contains p.1
    · have hcond : (!cs.contains p.1) = false := by rw [hk]; rfl
      have hne : (p.1 == c) = false := by
        by_cases he : p.1 = c
        · rw [he] at hk
          rw [hk] at h
          exact absurd h (by simp)
        · simp [he]
      rw [List.filter_cons, hcond]
      simp only [Bool.false_eq_true, if_false]
      rw [ih]
      simp only [hasCol]
      rw [hne, Bool.false_or]
    · have hk' : cs.contains p.1 = false := by simpa using hk
      have hcond : (!cs.contains p.1) = true := by rw [hk']; rfl
      rw [List.filter_cons, hcond]
      simp only [if_true]
      simp only [hasCol]
      rw [ih]

theorem getCol_dropCols (df : Batch) (cs : List String) (c : String)
    (h : cs.contains c = false) : getCol (dropCols df cs) c = getCol df c := by
  induction df with
  | nil => rfl
  | cons p t ih =>
    unfold dropCols at *
    by_cases hk : cs.contains p.1
    · have hcond : (!cs.contains p.1) = false := by rw [hk]; rfl
      have hne : (p.1 == c) = false := by
        by_cases he : p.1 = c
        · rw [he] at hk
          rw [hk] at h
          exact absurd h (by simp)
        · simp [he]
      rw [List.filter_cons, hcond]
      simp only [Bool.false_eq_true, if_false]
      rw [ih]
      simp only [getCol]
      rw [if_neg (by simp [hne])]
    · have hk' : cs.contains p.1 = false := by simpa using hk
      have hcond : (!cs.contains p.1) = true := by rw [hk']; rfl
      rw [List.filter_cons, hcond]
      simp only [if_true]
      simp only [getCol]
      by_cases hp : p.1 == c
      · simp only [if_pos hp]
      · simp only [if_neg hp]
        exact ih

theorem getCol_ite_set (P : Prop) [Decidable P] (df : Batch) (X : String)
    (v : List CVal) (c : String) (h : c ≠ X) :
    getCol (if P then setCol df X v else df) c = getCol df c := by
  by_cases hp : P
  · rw [if_pos hp]
    exact getCol_setCol_ne df X c v h
  · rw [if_neg hp]

theorem hasCol_ite_set (P : Prop) [Decidable P] (df : Batch) (X : String)
    (v : List CVal) (c : String) (h : c ≠ X) :
    hasCol (if P then setCol df X v else df) c = hasCol df c := by
  by_cases hp : P
  · rw [if_pos hp, hasCol_setCol]
    have : (X == c) = false := by
      simp only [beq_eq_false_iff_ne, ne_eq]
      exact fun he => h he.symm
    rw [this, Bool.or_false]
  · rw [if_neg hp]

theorem hasCol_set_guard (df : Batch) (X : String) (v : List CVal) (c : String) :
    hasCol (if hasCol df X = true then setCol df X v else df) c = hasCol df c := by
  by_cases hp : hasCol df X = true
  · rw [if_pos hp, hasCol_setCol]
    by_cases he : X == c
    · have hxc : X = c := by simpa using he
      rw [he, Bool.or_true]
      subst hxc
      exact hp.symm
    · have he' : (X == c) = false := by simpa using he
      rw [he', Bool.or_false]
  · rw [if_neg hp]

end CRAutos

namespace DataCleaner

open CRAutos

/-! ### Column-tracking lemmas for the cleaning steps -/

theorem getCol_clean_brands (df : Batch) (c : String) (h : c ≠ "brand") :
    getCol (clean_brands df) c = getCol df c := by
  unfold clean_brands
  exact getCol_ite_set _ df "brand" _ c h

theorem hasCol_clean_brands (df : Batch) (c : String) :
    hasCol (clean_brands df) c = hasCol df c := by
  unfold clean_brands
  exact hasCol_set_guard df "brand" _ c

theorem getCol_clean_fuel_types (df : Batch) (c : String) (h : c ≠ "fuel_type") :
    getCol (clean_fuel_types df) c = getCol df c := by
  unfold clean_fuel_types
  exact getCol_ite_set _ df "fuel_type" _ c h

theorem getCol_clean_mileage_ne (df : Batch) (c : String) (h : c ≠ "mileage") :
    getCol (clean_mileage df) c = getCol df c := by
  unfold clean_mileage
  exact getCol_ite_set _ df "mileage" _ c h

theorem getCol_clean_years_ne (df : Batch) (c : String) (h : c ≠ "year") :
    getCol (clean_years df) c = getCol df c := by
  unfold clean_years
  exact getCol_ite_set _ df "year" _ c h

theorem getCol_clean_engine_ne (df : Batch) (c : String) (h : c ≠ "engine_cc") :
    getCol (clean_engine_cc df) c = getCol df c := by
  unfold clean_engine_cc
  exact getCol_ite_set _ df "engine_cc" _ c h

theorem getCol_clean_colors (df : Batch) (c : String)
    (h1 : c ≠ "color_exterior") (h2 : c ≠ "color_interior") :
    getCol (clean_colors df) c = getCol df c := by
  unfold clean_colors
  simp only [List.foldl_cons, List.foldl_nil]
  rw [getCol_ite_set _ _ "color_interior" _ c h2, getCol_ite_set _ _ "color_exterior" _ c h1]

theorem getCol_validate_prices_ne (df : Batch) (c : String)
    (h1 : c ≠ "exchange_rate") (h2 : c ≠ "price_flag") :
    getCol (validate_prices df) c = getCol df c := by
  unfold validate_prices
  by_cases hp : (hasCol df "price_colones" && hasCol df "price_usd") = true
  · simp only [hp, if_true]
    rw [getCol_setCol_ne _ _ _ _ h2, getCol_setCol_ne _ _ _ _ h1]
  · simp only [hp, Bool.false_eq_true, if_false]

theorem getCol_clean_phone_numbers (df : Batch) (c : String) (h : c ≠ "seller_phone") :
    getCol (clean_phone_numbers df) c = getCol df c := by
  unfold clean_phone_numbers
  exact getCol_ite_set _ df "seller_phone" _ c h

theorem getCol_add_derived_features (refY : ℚ) (df : Batch) (c : String)
    (h1 : c ≠ "vehicle_age") (h2 : c ≠ "price_per_year") (h3 : c ≠ "is_luxury") :
    getCol (add_derived_features refY df) c = getCol df c := by
  unfold add_derived_features
  rw [getCol_ite_set _ _ "is_luxury" _ c h3, getCol_ite_set _ _ "price_per_year" _ c h2,
    getCol_ite_set _ _ "vehicle_age" _ c h1]

theorem getCol_clean_models_ne (df out : Batch) (c : String)
    (hc : clean_models df = .ok out) (h : c ≠ "model") :
    getCol out c = getCol df c := by
  unfold clean_models at hc
  by_cases hm : hasCol df "model" = true
  · by_cases hb : hasCol df "brand" = true
    · simp only [hm, hb, if_true] at hc
      obtain rfl := Except.ok.inj hc
      exact getCol_setCol_ne df "model" c _ h
    · have hb' : hasCol df "brand" = false := by simpa using hb
      simp only [hm, hb', if_true, Bool.false_eq_true, if_false] at hc
      exact Except.noConfusion hc
  · have hm' : hasCol df "model" = false := by simpa using hm
    simp only [hm', Bool.false_eq_true, if_false] at hc
    obtain rfl := Except.ok.inj hc
    rfl

theorem hasCol_clean_models (df out : Batch) (c : String)
    (hc : clean_models df = .ok out) :
    hasCol out c = hasCol df c := by
  unfold clean_models at hc
  by_cases hm : hasCol df "model" = true
  · by_cases hb : hasCol df "brand" = true
    · simp only [hm, hb, if_true] at hc
      obtain rfl := Except.ok.inj hc
      unfold setCol
      rw [if_pos hm]
      exact hasCol_putCol df "model" c _
    · have hb' : hasCol df "brand" = false := by simpa using hb
      simp only [hm, hb', if_true, Bool.false_eq_true, if_false] at hc
      exact Except.noConfusion hc
  · have hm' : hasCol df "model" = false := by simpa using hm
    simp only [hm', Bool.false_eq_true, if_false] at hc
    obtain rfl := Except.ok.inj hc
    rfl

theorem getCol_remove_empty (df : Batch) (c : String)
    (h : (["doors", "style", "location", "province", "features"] : List String).contains c
      = false) :
    getCol (remove_empty_columns df) c = getCol df c := by
  unfold remove_empty_columns
  exact getCol_dropCols df _ c h

theorem hasCol_remove_empty (df : Batch) (c : String)
    (h : (["doors", "style", "location", "province", "features"] : List String).contains c
      = false) :
    hasCol (remove_empty_columns df) c = hasCol df c := by
  unfold remove_empty_columns
  exact hasCol_dropCols df _ c h

theorem getCol_clean_years_self (d : Batch) :
    getCol (clean_years d) "year" = (getCol d "year").map cleanYearCell := by
  unfold clean_years
  by_cases hp : hasCol d "year" = true
  · rw [if_pos hp, getCol_setCol_self]
  · rw [if_neg hp, getCol_absent d "year" (Bool.of_not_eq_true hp)]
    rfl

theorem getCol_clean_mileage_self (d : Batch) :
    getCol (clean_mileage d) "mileage" = (getCol d "mileage").map cleanMileageCell := by
  unfold clean_mileage
  by_cases hp : hasCol d "mileage" = true
  · rw [if_pos hp, getCol_setCol_self]
  · rw [if_neg hp, getCol_absent d "mileage" (Bool.of_not_eq_true hp)]
    rfl

theorem getCol_clean_engine_self (d : Batch) :
    getCol (clean_engine_cc d) "engine_cc" = (getCol d "engine_cc").map cleanEngineCell := by
  unfold clean_engine_cc
  by_cases hp : hasCol d "engine_cc" = true
  · rw [if_pos hp, getCol_setCol_self]
  · rw [if_neg hp, getCol_absent d "engine_cc" (Bool.of_not_eq_true hp)]
    rfl

theorem clean_data_ok_elim {refY : ℚ} {df out : Batch}
    (h : clean_data refY df = .ok out) :
    ∃ df2, clean_models (clean_brands (remove_empty_columns df)) = .ok df2 ∧
      out = add_derived_features refY
        (clean_phone_numbers
          (validate_prices
            (clean_colors
              (clean_engine_cc
                (clean_mileage
                  (clean_years
                    (clean_fuel_types df2))))))) := by
  unfold clean_data at h
  cases hcm : clean_models (clean_brands (remove_empty_columns df)) with
  | error e =>
    rw [hcm] at h
    exact Except.noConfusion h
  | ok df2 =>
    rw [hcm] at h
    simp only [Except.map] at h
    exact ⟨df2, rfl, (Except.ok.inj h).symm⟩

theorem getCol_clean_data_year (refY : ℚ) (df out : Batch)
    (h : clean_data refY df = .ok out) :
    getCol out "year" = (getCol df "year").map cleanYearCell := by
  obtain ⟨df2, hcm, rfl⟩ := clean_data_ok_elim h
  rw [getCol_add_derived_features _ _ _ (by decide) (by decide) (by decide),
    getCol_clean_phone_numbers _ _ (by decide),
    getCol_validate_prices_ne _ _ (by decide) (by decide),
    getCol_clean_colors _ _ (by decide) (by decide),
    getCol_clean_engine_ne _ _ (by decide),
    getCol_clean_mileage_ne _ _ (by decide),
    getCol_clean_years_self,
    getCol_clean_fuel_types _ _ (by decide),
    getCol_clean_models_ne _ _ _ hcm (by decide),
    getCol_clean_brands _ _ (by decide),
    getCol_remove_empty _ _ (by decide)]

theorem getCol_clean_data_mileage (refY : ℚ) (df out : Batch)
    (h : clean_data refY df = .ok out) :
    getCol out "mileage" = (getCol df "mileage").map cleanMileageCell := by
  obtain ⟨df2, hcm, rfl⟩ := clean_data_ok_elim h
  rw [getCol_add_derived_features _ _ _ (by decide) (by decide) (by decide),
    getCol_clean_phone_numbers _ _ (by decide),
    getCol_validate_prices_ne _ _ (by decide) (by decide),
    getCol_clean_colors _ _ (by decide) (by decide),
    getCol_clean_engine_ne _ _ (by decide),
    getCol_clean_mileage_self,
    getCol_clean_years_ne _ _ (by decide),
    getCol_clean_fuel_types _ _ (by decide),
    getCol_clean_models_ne _ _ _ hcm (by decide),
    getCol_clean_brands _ _ (by decide),
    getCol_remove_empty _ _ (by decide)]

theorem getCol_clean_data_engine (refY : ℚ) (df out : Batch)
    (h : clean_data refY df = .ok out) :
    getCol out "engine_cc" = (getCol df "engine_cc").map cleanEngineCell := by
  obtain ⟨df2, hcm, rfl⟩ := clean_data_ok_elim h
  rw [getCol_add_derived_features _ _ _ (by decide) (by decide) (by decide),
    getCol_clean_phone_numbers _ _ (by decide),
    getCol_validate_prices_ne _ _ (by decide) (by decide),
    getCol_clean_colors _ _ (by decide) (by decide),
    getCol_clean_engine_self,
    getCol_clean_mileage_ne _ _ (by decide),
    getCol_clean_years_ne _ _ (by decide),
    getCol_clean_fuel_types _ _ (by decide),
    getCol_clean_models_ne _ _ _ hcm (by decide),
    getCol_clean_brands _ _ (by decide),
    getCol_remove_empty _ _ (by decide)]

theorem clean_data_ok_of_cols (refY : ℚ) (df : Batch)
    (h : hasCol df "model" = true → hasCol df "brand" = true) :
    ∃ out, clean_data refY df = .ok out := by
  unfold clean_data
  cases hcm : clean_models (clean_brands (remove_empty_columns df)) with
  | ok df2 => exact ⟨_, rfl⟩
  | error e =>
    exfalso
    unfold clean_models at hcm
    by_cases hm : hasCol (clean_brands (remove_empty_columns df)) "model" = true
    · by_cases hb : hasCol (clean_brands (remove_empty_columns df)) "brand" = true
      · simp only [hm, hb, if_true] at hcm
        exact Except.noConfusion hcm
      · have hm0 : hasCol df "model" = true := by
          rw [← hasCol_remove_empty df "model" (by decide), ← hasCol_clean_brands]
          exact hm
        have hb0 : hasCol (clean_brands (remove_empty_columns df)) "brand" = true := by
          rw [hasCol_clean_brands, hasCol_remove_empty df "brand" (by decide)]
          exact h hm0
        exact hb hb0
    · have hm' : hasCol (clean_brands (remove_empty_columns df)) "model" = false := by
        simpa using hm
      simp only [hm', Bool.false_eq_true, if_false] at hcm
      exact Except.noConfusion hcm

theorem getCol_clean_brands_self (d : Batch) :
    getCol (clean_brands d) "brand" = (getCol d "brand").map cleanBrandCell := by
  unfold clean_brands
  by_cases hp : hasCol d "brand" = true
  · rw [if_pos hp, getCol_setCol_self]
  · rw [if_neg hp, getCol_absent d "brand" (Bool.of_not_eq_true hp)]
    rfl

theorem getCol_clean_data_brand (refY : ℚ) (df out : Batch)
    (h : clean_data refY df = .ok out) :
    getCol out "brand" = (getCol df "brand").map cleanBrandCell := by
  obtain ⟨df2, hcm, rfl⟩ := clean_data_ok_elim h
  rw [getCol_add_derived_features _ _ _ (by decide) (by decide) (by decide),
    getCol_clean_phone_numbers _ _ (by decide),
    getCol_validate_prices_ne _ _ (by decide) (by decide),
    getCol_clean_colors _ _ (by decide) (by decide),
    getCol_clean_engine_ne _ _ (by decide),
    getCol_clean_mileage_ne _ _ (by decide),
    getCol_clean_years_ne _ _ (by decide),
    getCol_clean_fuel_types _ _ (by decide),
    getCol_clean_models_ne _ _ _ hcm (by decide),
    getCol_clean_brands_self,
    getCol_remove_empty _ _ (by decide)]

/-! ### Cell-level range facts -/

theorem cleanYearCell_spec (c : CVal) (h : isNumOrNull c = true) :
    cleanYearCell c = CVal.null ∨
      ∃ q, cleanYearCell c = CVal.n q ∧ 1950 ≤ q ∧ q ≤ 2026 := by
  cases c with
  | s v => exact absurd h (by simp [isNumOrNull])
  | b v => exact absurd h (by simp [isNumOrNull])
  | inf => exact absurd h (by simp [isNumOrNull])
  | ninf => exact absurd h (by simp [isNumOrNull])
  | null =>
    left
    rfl
  | n q =>
    unfold cleanYearCell ltN gtN
    by_cases h1 : q < 1950
    · left
      simp [h1]
    · by_cases h2 : 2026 < q
      · left
        simp [h2]
      · right
        refine ⟨q, ?_, by linarith [not_lt.mp h1], by linarith [not_lt.mp h2]⟩
        simp [h1, h2]

theorem cleanMileageCell_spec (c : CVal) (h : isNumOrNull c = true) :
    cleanMileageCell c = CVal.null ∨
      ∃ q, cleanMileageCell c = CVal.n q ∧ q ≠ 0 ∧ q ≤ 500000 := by
  cases c with
  | s v => exact absurd h (by simp [isNumOrNull])
  | b v => exact absurd h (by simp [isNumOrNull])
  | inf => exact absurd h (by simp [isNumOrNull])
  | ninf => exact absurd h (by simp [isNumOrNull])
  | null =>
    left
    rfl
  | n q =>
    unfold cleanMileageCell gtN eqN
    by_cases h1 : (500000 : ℚ) < q
    · left
      simp [h1]
    · have e1 : decide ((500000 : ℚ) < q) = false := by simp [h1]
      by_cases h2 : q = 0
      · left
        simp [e1, h2]
        norm_num
      · have e2 : (q == (0 : ℚ)) = false := by simp [h2]
        right
        refine ⟨q, ?_, h2, by linarith [not_lt.mp h1]⟩
        simp [e1, e2]

theorem cleanEngineCell_spec (c : CVal) (h : isNumOrNull c = true) :
    cleanEngineCell c = CVal.null ∨
      ∃ q, cleanEngineCell c = CVal.n q ∧ 500 ≤ q ∧ q ≤ 6000 := by
  cases c with
  | s v => exact absurd h (by simp [isNumOrNull])
  | b v => exact absurd h (by simp [isNumOrNull])
  | inf => exact absurd h (by simp [isNumOrNull])
  | ninf => exact absurd h (by simp [isNumOrNull])
  | null =>
    left
    rfl
  | n q =>
    unfold cleanEngineCell ltN gtN
    by_cases h1 : q < 500
    · left
      simp [h1]
    · by_cases h2 : 6000 < q
      · left
        simp [h2]
      · right
        refine ⟨q, ?_, by linarith [not_lt.mp h1], by linarith [not_lt.mp h2]⟩
        simp [h1, h2]

/-! ### Brand-cleaning idempotence -/

theorem brandStr_idem (w : List Char) (hw : pyLower w = w) (hs : pyStrip w = w) :
    pyTitle (aliasVal brand_mapping
      (pyStrip (pyLower (pyTitle (aliasVal brand_mapping w))))) =
    pyTitle (aliasVal brand_mapping w) := by
  cases hfind : brand_mapping.find? (fun p => p.1 == w) with
  | some pr =>
    have hmem : pr ∈ brand_mapping := List.mem_of_find?_eq_some hfind
    have ha : aliasVal brand_mapping w = pr.2 := by
      unfold aliasVal
      rw [hfind]
    rw [ha]
    simp only [brand_mapping, List.mem_cons, List.not_mem_nil, or_false] at hmem
    rcases hmem with h | h | h | h | h <;> (subst h; decide)
  | none =>
    have ha : aliasVal brand_mapping w = w := by
      unfold aliasVal
      rw [hfind]
    rw [ha]
    have h2 : pyStrip (pyLower (pyTitle w)) = w := by
      rw [pyLower_pyTitle, hw, hs]
    rw [h2, ha]

theorem cleanBrandCell_idem (c : CVal) :
    cleanBrandCell (cleanBrandCell c) = cleanBrandCell c := by
  cases c with
  | s v =>
    have hw : pyLower (pyStrip (pyLower v)) = pyStrip (pyLower v) := by
      rw [← pyStrip_pyLower, pyLower_pyLower]
    have hs : pyStrip (pyStrip (pyLower v)) = pyStrip (pyLower v) :=
      pyStrip_pyStrip (pyLower v)
    show CVal.s (pyTitle (aliasVal brand_mapping
        (pyStrip (pyLower (pyTitle (aliasVal brand_mapping (pyStrip (pyLower v)))))))) =
      CVal.s (pyTitle (aliasVal brand_mapping (pyStrip (pyLower v))))
    exact congrArg CVal.s (brandStr_idem _ hw hs)
  | n q => rfl
  | b v => rfl
  | inf => rfl
  | ninf => rfl
  | null => rfl

end DataCleaner

namespace DataValidator

open CRAutos

/-! ### The pass flag depends only on required-column presence -/

theorem rangeStep_passed (df : Batch) (r : Report) (p : String × ℚ × ℚ) :
    (rangeStep df r p).passed_validation = r.passed_validation := by
  unfold rangeStep
  by_cases h1 : hasCol df p.1 = true
  · simp only [h1, if_true]
    by_cases h2 : 0 < countInvalidRange (getCol df p.1) p.2.1 p.2.2
    · simp [h2]
    · simp [h2]
  · simp [h1]

theorem foldl_rangeStep_passed (df : Batch) :
    ∀ (rules : List (String × ℚ × ℚ)) (r : Report),
      (rules.foldl (rangeStep df) r).passed_validation = r.passed_validation := by
  intro rules
  induction rules with
  | nil => intro r; rfl
  | cons p t ih =>
    intro r
    rw [List.foldl_cons, ih, rangeStep_passed]

theorem dupStep_passed (df : Batch) (r : Report) :
    (dupStep df r).passed_validation = r.passed_validation := by
  unfold dupStep
  by_cases h1 : hasCol df "vehicle_id" = true
  · simp only [h1, if_true]
    by_cases h2 : 0 < duplicatedCount (getCol df "vehicle_id")
    · simp [h2]
    · simp [h2]
  · simp [h1]

theorem priceStep_passed (df : Batch) (r : Report) :
    (priceStep df r).passed_validation = r.passed_validation := by
  unfold priceStep
  by_cases h1 : (hasCol df "price_usd" && hasCol df "price_colones") = true
  · simp only [h1, if_true]
    by_cases h2 : 0 < priceInconsistCount df
    · simp [h2]
    · simp [h2]
  · simp [h1]

theorem reqStep_passed (df : Batch) (r : Report) (f : String) :
    (reqStep df r f).passed_validation = (r.passed_validation && hasCol df f) := by
  unfold reqStep
  by_cases h1 : hasCol df f = true
  · have hb : (!hasCol df f) = false := by rw [h1]; rfl
    simp only [hb, Bool.false_eq_true, if_false]
    by_cases h2 : 0 < nullCount (getCol df f)
    · simp [h2, h1]
    · simp [h2, h1]
  · have h1' : hasCol df f = false := by simpa using h1
    have hb : (!hasCol df f) = true := by rw [h1']; rfl
    simp [hb, h1']

theorem foldl_reqStep_passed (df : Batch) :
    ∀ (fs : List String) (r : Report),
      (fs.foldl (reqStep df) r).passed_validation =
        (r.passed_validation && fs.all (fun f => hasCol df f)) := by
  intro fs
  induction fs with
  | nil => intro r; simp [List.all_nil]
  | cons f t ih =>
    intro r
    rw [List.foldl_cons, ih, reqStep_passed, List.all_cons, Bool.and_assoc]

theorem validate_data_passed (df : Batch) :
    (validate_data df).1.passed_validation =
      required_fields.all (fun f => hasCol df f) := by
  unfold validate_data
  rw [priceStep_passed, dupStep_passed, foldl_rangeStep_passed, foldl_reqStep_passed,
    Bool.true_and]

end DataValidator

namespace VehicleParser

open CRAutos

/-! ### Scan lemmas: the scanner returns the leftmost match -/

theorem scanM_first {α : Type} (f : List Char → Option α) :
    ∀ (l : List Char) (v : α), scanM f l = some v →
      ∃ i, f (l.drop i) = some v ∧ ∀ j < i, f (l.drop j) = none := by
  intro l
  induction l with
  | nil => intro v h; exact absurd h (by simp [scanM])
  | cons c cs ih =>
    intro v h
    unfold scanM at h
    cases hf : f (c :: cs) with
    | some w =>
      rw [hf] at h
      refine ⟨0, ?_, by omega⟩
      rw [List.drop_zero, hf]
      exact h
    | none =>
      rw [hf] at h
      obtain ⟨i, hi, hj⟩ := ih v h
      refine ⟨i + 1, hi, ?_⟩
      intro j hji
      cases j with
      | zero => exact hf
      | succ j0 => exact hj j0 (by omega)

theorem priceMatchAt_some (sym : Char) (l tok : List Char)
    (h : priceMatchAt sym l = some tok) :
    tok ≠ [] ∧ ∀ c ∈ tok, c ∈ l ∧ isNumTok c = true := by
  cases l with
  | nil => exact absurd h (by simp [priceMatchAt])
  | cons c cs =>
    simp only [priceMatchAt] at h
    by_cases hc : c == sym
    · rw [if_pos hc] at h
      by_cases he : ((cs.dropWhile isSpaceA).takeWhile isNumTok).isEmpty
      · rw [if_pos he] at h
        exact absurd h (by simp)
      · rw [if_neg he] at h
        obtain rfl := Option.some.inj h
        refine ⟨by simpa [List.isEmpty_iff] using he, ?_⟩
        intro x hx
        refine ⟨?_, List.mem_takeWhile_imp hx⟩
        have h1 : x ∈ cs.dropWhile isSpaceA :=
          (List.takeWhile_sublist _).mem hx
        have h2 : x ∈ cs := (List.dropWhile_sublist _).mem h1
        exact List.mem_cons_of_mem c h2
    · rw [if_neg hc] at h
      exact absurd h (by simp)

/-- When a price pattern matches, the `int(...)` call raises exactly
when the captured token consists only of dots (separators). -/
theorem price_error_iff (sym : Char) (t : List Char)
    (res : Except Unit (Option Nat))
    (hres : res = match priceScan sym (removeCommas t) with
      | some tok => (intOfToken tok).map some
      | none => .ok none) :
    (res = .error () ↔
      ∃ tok, priceScan sym (removeCommas t) = some tok ∧ ∀ c ∈ tok, c = '.') := by
  subst hres
  cases hscan : priceScan sym (removeCommas t) with
  | none => simp
  | some tok =>
    obtain ⟨i, hi, _⟩ := scanM_first (priceMatchAt sym) (removeCommas t) tok hscan
    obtain ⟨hne, hmem⟩ := priceMatchAt_some sym _ tok hi
    simp only [Option.some.injEq]
    constructor
    · intro herr
      refine ⟨tok, rfl, ?_⟩
      unfold intOfToken at herr
      by_cases hds : ((tok.filter fun c => !(c == '.')).filter fun c => !(c == ',')).isEmpty
      · intro c hc
        by_contra hcd
        have hcm : c ∈ (removeCommas t).drop i := (hmem c hc).1
        have hcl : c ∈ removeCommas t := (List.drop_sublist i _).mem hcm
        have hnotc : (c == ',') = false := by
          unfold removeCommas at hcl
          have := (List.mem_filter.mp hcl).2
          simpa using this
        have hin1 : c ∈ tok.filter (fun c => !(c == '.')) :=
          List.mem_filter.mpr ⟨hc, by simp [hcd]⟩
        have hin2 : c ∈ (tok.filter fun c => !(c == '.')).filter (fun c => !(c == ',')) :=
          List.mem_filter.mpr ⟨hin1, by rw [hnotc]; rfl⟩
        rw [List.isEmpty_iff] at hds
        rw [hds] at hin2
        exact absurd hin2 (List.not_mem_nil c)
      · rw [if_neg hds] at herr
        exact absurd herr (by simp [Except.map])
    · rintro ⟨tok', htok', hdots⟩
      subst htok'
      have hds : (tok.filter fun c => !(c == '.')) = [] := by
        rw [List.filter_eq_nil_iff]
        intro a ha
        simp [hdots a ha]
      unfold intOfToken
      rw [hds]
      rfl

end VehicleParser

section Claims

open CRAutos DataCleaner DataValidator VehicleParser VehicleETLPipeline Fixtures

/-- C1: for every batch with both price columns present, the price step
gives each row with both prices positive an exchange_rate exactly equal
to price_colones / price_usd, and sets price_flag for that row iff the
rate is strictly below 400 or strictly above 600. -/
theorem C1_price_step_exact (df : Batch) (i : Nat) (a b : ℚ)
    (hc : hasCol df "price_colones" = true) (hu : hasCol df "price_usd" = true)
    (ha : (getCol df "price_colones")[i]? = some (CVal.n a))
    (hb : (getCol df "price_usd")[i]? = some (CVal.n b))
    (_hpa : 0 < a) (hpb : 0 < b) :
    (getCol (validate_prices df) "exchange_rate")[i]? = some (CVal.n (a / b)) ∧
    (getCol (validate_prices df) "price_flag")[i]? =
      some (CVal.b (decide (a / b < 400) || decide (600 < a / b))) ∧
    ((getCol (validate_prices df) "price_flag")[i]? = some (CVal.b true) ↔
      (a / b < 400 ∨ 600 < a / b)) := by
  unfold validate_prices
  have hcond : (hasCol df "price_colones" && hasCol df "price_usd") = true := by
    rw [hc, hu]
    rfl
  simp only [hcond, if_true]
  have hb0 : (b == (0 : ℚ)) = false := by
    simp only [beq_eq_false_iff_ne, ne_eq]
    exact ne_of_gt hpb
  have hrate :
      (List.zipWith divN (getCol df "price_colones") (getCol df "price_usd"))[i]? =
        some (CVal.n (a / b)) := by
    rw [List.getElem?_zipWith, ha, hb]
    simp [divN, hb0]
  refine ⟨?_, ?_, ?_⟩
  · rw [getCol_setCol_ne _ _ _ _ (by decide), getCol_setCol_self]
    exact hrate
  · rw [getCol_setCol_self, List.getElem?_map, hrate]
    rfl
  · rw [getCol_setCol_self, List.getElem?_map, hrate]
    simp [ltN, gtN]

/-- C1 witness: colones 10,000,000 and usd 20,000 give rate 500 and no
flag. -/
theorem C1_price_step_exact_witness :
    (getCol (validate_prices
        [("price_colones", [CVal.n 10000000]), ("price_usd", [CVal.n 20000])])
      "exchange_rate")[0]? = some (CVal.n (10000000 / 20000)) ∧
    (getCol (validate_prices
        [("price_colones", [CVal.n 10000000]), ("price_usd", [CVal.n 20000])])
      "price_flag")[0]? = some (CVal.b false) ∧
    (10000000 : ℚ) / 20000 = 500 := by
  have h := C1_price_step_exact
    [("price_colones", [CVal.n 10000000]), ("price_usd", [CVal.n 20000])]
    0 10000000 20000 (by decide) (by decide) (by decide) (by decide)
    (by norm_num) (by norm_num)
  refine ⟨h.1, ?_, by norm_num⟩
  rw [h.2.1]
  have hflag : (decide ((10000000 : ℚ) / 20000 < 400) ||
      decide ((600 : ℚ) < 10000000 / 20000)) = false := by
    rw [decide_eq_false (by norm_num), decide_eq_false (by norm_num)]
    rfl
  rw [hflag]

/-- C2 counterexample: a batch whose pre-clean validation fails (no
`url` column) still runs through Clean and Load and the whole pipeline
completes without raising. -/
theorem C2_counterexample :
    (validate_data rawNoUrl).1.passed_validation = false ∧
    (run_full_pipeline 2025 rawNoUrl).early_return = false ∧
    (run_full_pipeline 2025 rawNoUrl).cleaned = true ∧
    (run_full_pipeline 2025 rawNoUrl).loaded = true ∧
    (run_full_pipeline 2025 rawNoUrl).stats_ok = true ∧
    (run_full_pipeline 2025 rawNoUrl).failed = none := by
  refine ⟨by decide, by decide, by decide, by decide, by decide, by decide⟩

/-- C2 (amended): a failed pre-clean validation report never stops the
run; for every nonempty extracted batch (whose `model` column, if any,
comes with a `brand` column, ruling out the cleaner's own KeyError) the
pipeline continues through the Clean and Load stages regardless of the
report's outcome, and batches with mere warnings run to completion. -/
theorem C2_validation_failure_not_fatal (refY : ℚ) (raw : Batch)
    (h0 : 0 < numRows raw)
    (h1 : hasCol raw "model" = true → hasCol raw "brand" = true) :
    (run_full_pipeline refY raw).cleaned = true ∧
    (run_full_pipeline refY raw).loaded = true := by
  unfold run_full_pipeline
  have hnz : (numRows raw == 0) = false := by
    simp only [beq_eq_false_iff_ne, ne_eq]
    omega
  simp only [hnz, Bool.false_eq_true, if_false]
  obtain ⟨out, hout⟩ := clean_data_ok_of_cols refY raw h1
  simp only [hout]
  trivial

/-- C2 witness: the amended statement at a concrete failing batch. -/
theorem C2_validation_failure_not_fatal_witness :
    (run_full_pipeline 2025 rawNoUrl).cleaned = true ∧
    (run_full_pipeline 2025 rawNoUrl).loaded = true :=
  C2_validation_failure_not_fatal 2025 rawNoUrl (by decide) (by decide)

/-- C3 counterexample: a negative mileage survives cleaning unchanged,
so the cleaned value is neither null nor in (0, 500000]. -/
theorem C3_counterexample :
    clean_data 2025 [("mileage", [CVal.n (-1)])] =
      .ok [("mileage", [CVal.n (-1)])] ∧
    ¬(CVal.n (-1) = CVal.null ∨
      ∃ q : ℚ, CVal.n (-1) = CVal.n q ∧ 0 < q ∧ q ≤ 500000) := by
  refine ⟨by decide, ?_⟩
  rintro (h | ⟨q, hq, hpos, _⟩)
  · exact CVal.noConfusion h
  · rw [← CVal.n.inj hq] at hpos
    norm_num at hpos

/-- C3 (amended): on numeric-or-null columns the cleaner's output has
`year` null or in [1950, 2026] and `engine_cc` null or in [500, 6000],
exactly as claimed; `mileage` is null or nonzero and at most 500000,
but negative values are NOT nulled (the code only nulls `> 500000` and
`== 0`). -/
theorem C3_range_nulling (refY : ℚ) (df out : Batch)
    (h : clean_data refY df = .ok out)
    (hy : ∀ c ∈ getCol df "year", isNumOrNull c = true)
    (hm : ∀ c ∈ getCol df "mileage", isNumOrNull c = true)
    (he : ∀ c ∈ getCol df "engine_cc", isNumOrNull c = true) :
    (∀ c ∈ getCol out "year",
      c = CVal.null ∨ ∃ q, c = CVal.n q ∧ 1950 ≤ q ∧ q ≤ 2026) ∧
    (∀ c ∈ getCol out "mileage",
      c = CVal.null ∨ ∃ q, c = CVal.n q ∧ q ≠ 0 ∧ q ≤ 500000) ∧
    (∀ c ∈ getCol out "engine_cc",
      c = CVal.null ∨ ∃ q, c = CVal.n q ∧ 500 ≤ q ∧ q ≤ 6000) := by
  refine ⟨?_, ?_, ?_⟩
  · rw [getCol_clean_data_year refY df out h]
    intro c hc
    rw [List.mem_map] at hc
    obtain ⟨c0, hc0, rfl⟩ := hc
    exact cleanYearCell_spec c0 (hy c0 hc0)
  · rw [getCol_clean_data_mileage refY df out h]
    intro c hc
    rw [List.mem_map] at hc
    obtain ⟨c0, hc0, rfl⟩ := hc
    exact cleanMileageCell_spec c0 (hm c0 hc0)
  · rw [getCol_clean_data_engine refY df out h]
    intro c hc
    rw [List.mem_map] at hc
    obtain ⟨c0, hc0, rfl⟩ := hc
    exact cleanEngineCell_spec c0 (he c0 hc0)

/-- C3 witness: the amended statement at a concrete batch with
out-of-range year, mileage and engine values. -/
theorem C3_range_nulling_witness :
    clean_data 2025 c3df = .ok c3out ∧
    (∀ c ∈ getCol c3out "year",
      c = CVal.null ∨ ∃ q, c = CVal.n q ∧ 1950 ≤ q ∧ q ≤ 2026) ∧
    (∀ c ∈ getCol c3out "mileage",
      c = CVal.null ∨ ∃ q, c = CVal.n q ∧ q ≠ 0 ∧ q ≤ 500000) ∧
    (∀ c ∈ getCol c3out "engine_cc",
      c = CVal.null ∨ ∃ q, c = CVal.n q ∧ 500 ≤ q ∧ q ≤ 6000) := by
  have hok : clean_data 2025 c3df = .ok c3out := by decide
  have h := C3_range_nulling 2025 c3df c3out hok (by decide) (by decide) (by decide)
  exact ⟨hok, h.1, h.2.1, h.2.2⟩

/-- C4 counterexample: clean_data is not idempotent — the canonical
fuel label 'Gasoline' produced by one run is down-cased to 'gasoline'
by a second run. -/
theorem C4_counterexample :
    clean_data 2025 [("fuel_type", [CVal.s (cl "gasolina")])] =
      .ok [("fuel_type", [CVal.s (cl "Gasoline")])] ∧
    clean_data 2025 [("fuel_type", [CVal.s (cl "Gasoline")])] =
      .ok [("fuel_type", [CVal.s (cl "gasoline")])] ∧
    ([("fuel_type", [CVal.s (cl "gasoline")])] : Batch) ≠
      [("fuel_type", [CVal.s (cl "Gasoline")])] := by
  refine ⟨by decide, by decide, by decide⟩

/-- C4 (amended): the brand column IS stable under a second cleaning
run — brand cleaning is idempotent (a canonical brand such as 'Toyota'
stays 'Toyota') — but full clean_data is not idempotent, because
canonical fuel-type labels are lower-cased again on a second run. -/
theorem C4_brand_idempotent (refY1 refY2 : ℚ) (df out out2 : Batch)
    (h1 : clean_data refY1 df = .ok out) (h2 : clean_data refY2 out = .ok out2) :
    getCol out2 "brand" = getCol out "brand" := by
  rw [getCol_clean_data_brand refY2 out out2 h2,
    getCol_clean_data_brand refY1 df out h1, List.map_map]
  apply List.map_congr_left
  intro c _
  exact cleanBrandCell_idem c

/-- C4 witness: two cleaning runs on a concrete batch; the fuel label
changes but the brand column is stable. -/
theorem C4_brand_idempotent_witness :
    getCol c4out2 "brand" = getCol c4out1 "brand" :=
  C4_brand_idempotent 2025 2025 c4df c4out1 c4out2 (by decide) (by decide)

/-- C5: the mileage extractor's kilometer branch multiplies the matched
number by 1000 just like the "mil" branch, so '120000 km' extracts as
120,000,000 rather than the claimed 120,000 (evaluated at the failing
input; the "mil" branch and the no-match case behave as claimed). -/
theorem C5_km_branch_multiplies :
    extract_mileage (cl "120000 km") = some 120000000 ∧
    extract_mileage (cl "120 mil") = some 120000 ∧
    extract_mileage (cl "no mileage stated") = none := by
  refine ⟨by decide, by decide, by decide⟩

/-- C6: the validator never mutates its input — for every batch, the
frame coming out of a validate_data call is the frame that went in
(the source method performs no assignment into `df`). -/
theorem C6_validator_pure (df : Batch) : (validate_data df).2 = df := rfl

/-- C7: the validation report fails exactly when a required column
(url, vehicle_id, brand, price_usd, price_colones) is absent; nulls,
out-of-range values, duplicates and inconsistent prices only ever add
warnings and never clear the pass flag. -/
theorem C7_passed_iff_required_present (df : Batch) :
    (validate_data df).1.passed_validation = false ↔
      ∃ f ∈ required_fields, hasCol df f = false := by
  rw [validate_data_passed]
  constructor
  · intro h
    by_contra hno
    push_neg at hno
    have hall : required_fields.all (fun f => hasCol df f) = true := by
      rw [List.all_eq_true]
      intro f hf
      have := hno f hf
      simpa using this
    rw [hall] at h
    exact absurd h (by simp)
  · rintro ⟨f, hf, hcol⟩
    cases hall : required_fields.all (fun f => hasCol df f) with
    | false => rfl
    | true =>
      have := List.all_eq_true.mp hall f hf
      rw [hcol] at this
      exact absurd this (by simp)

/-- C7 witness: a batch missing `url` fails; a batch with all required
columns passes. -/
theorem C7_passed_iff_required_present_witness :
    (validate_data [("vehicle_id", [CVal.s (cl "v")])]).1.passed_validation = false ∧
    (validate_data reqFull).1.passed_validation = true := by
  constructor
  · exact (C7_passed_iff_required_present _).mpr ⟨"url", by decide, by decide⟩
  · cases hb : (validate_data reqFull).1.passed_validation with
    | true => rfl
    | false =>
      exact absurd ((C7_passed_iff_required_present reqFull).mp hb) (by decide)

/-- C8 counterexample: the colones price extractor raises (ValueError
from `int('')`) on the input '¢.', whose matched token is a bare dot —
so the extractors are not all total. -/
theorem C8_counterexample :
    extract_price_colones (cl "¢.") = .error () := by decide

/-- C8 (amended): every extractor returns null (or the empty list) and
does not raise when its patterns find no match, scalar extractors keep
only the first (leftmost) match and the kilometer pattern is tried
before the "mil" pattern; the two price extractors, however, raise
exactly when the token they matched consists only of dots. -/
theorem C8_extractors_total (t : List Char) :
    (extract_price_colones t = .error () ↔
      ∃ tok, priceScan '¢' (removeCommas t) = some tok ∧ ∀ c ∈ tok, c = '.') ∧
    (extract_price_usd t = .error () ↔
      ∃ tok, priceScan '$' (removeCommas t) = some tok ∧ ∀ c ∈ tok, c = '.') ∧
    (priceScan '¢' (removeCommas t) = none → extract_price_colones t = .ok none) ∧
    (priceScan '$' (removeCommas t) = none → extract_price_usd t = .ok none) ∧
    (scanP yearMatchAt none t = none → extract_year t = none) ∧
    (scanM kmMatchAt (pyLower t) = none ∧ scanM milMatchAt (pyLower t) = none →
      extract_mileage t = none) ∧
    (scanM ccMatchAt (pyLower t) = none ∧ scanM litMatchAt (pyLower t) = none →
      extract_engine_cc t = none) ∧
    (findAllAux phone1At none t = [] ∧ findAllAux phone2At none t = [] ∧
      findAllAux phone3At none t = [] → extract_phone_numbers t = []) ∧
    (∀ v, extract_mileage t = some v →
      (∃ n, scanM kmMatchAt (pyLower t) = some n ∧ v = n * 1000) ∨
      (scanM kmMatchAt (pyLower t) = none ∧
        ∃ n, scanM milMatchAt (pyLower t) = some n ∧ v = n * 1000)) ∧
    (∀ tok, priceScan '¢' (removeCommas t) = some tok →
      ∃ i, priceMatchAt '¢' ((removeCommas t).drop i) = some tok ∧
        ∀ j < i, priceMatchAt '¢' ((removeCommas t).drop j) = none) ∧
    (∀ n, scanM kmMatchAt (pyLower t) = some n →
      ∃ i, kmMatchAt ((pyLower t).drop i) = some n ∧
        ∀ j < i, kmMatchAt ((pyLower t).drop j) = none) := by
  refine ⟨price_error_iff '¢' t _ rfl, price_error_iff '$' t _ rfl,
    ?_, ?_, ?_, ?_, ?_, ?_, ?_,
    fun tok h => scanM_first _ _ tok h, fun n h => scanM_first _ _ n h⟩
  · intro h
    simp [extract_price_colones, h]
  · intro h
    simp [extract_price_usd, h]
  · intro h
    simp [extract_year, h]
  · rintro ⟨h1, h2⟩
    simp [extract_mileage, h1, h2]
  · rintro ⟨h1, h2⟩
    simp [extract_engine_cc, h1, h2]
  · rintro ⟨h1, h2, h3⟩
    simp only [extract_phone_numbers, h1, h2, h3, List.append_nil]
    rfl
  · intro v h
    unfold extract_mileage at h
    cases hk : scanM kmMatchAt (pyLower t) with
    | some n =>
      simp only [hk] at h
      exact Or.inl ⟨n, rfl, (Option.some.inj h).symm⟩
    | none =>
      simp only [hk] at h
      cases hm : scanM milMatchAt (pyLower t) with
      | some n =>
        simp only [hm] at h
        exact Or.inr ⟨rfl, n, rfl, (Option.some.inj h).symm⟩
      | none =>
        simp only [hm] at h
        exact absurd h (by simp)

/-- C8 witness: the amended statement at concrete inputs — every
extractor returns null/empty on text with no match, and the usd
extractor raises on a dot-only token. -/
theorem C8_extractors_total_witness :
    extract_price_colones (cl "no price") = .ok none ∧
    extract_price_usd (cl "¢ 500") = .ok none ∧
    extract_year (cl "abc") = none ∧
    extract_mileage (cl "no data") = none ∧
    extract_engine_cc (cl "xyz") = none ∧
    extract_phone_numbers (cl "nope") = [] ∧
    extract_price_usd (cl "$..") = .error () := by
  refine ⟨(C8_extractors_total (cl "no price")).2.2.1 (by decide),
    (C8_extractors_total (cl "¢ 500")).2.2.2.1 (by decide),
    (C8_extractors_total (cl "abc")).2.2.2.2.1 (by decide),
    (C8_extractors_total (cl "no data")).2.2.2.2.2.1 ⟨by decide, by decide⟩,
    (C8_extractors_total (cl "xyz")).2.2.2.2.2.2.1 ⟨by decide, by decide⟩,
    (C8_extractors_total (cl "nope")).2.2.2.2.2.2.2.1 ⟨by decide, by decide, by decide⟩,
    (C8_extractors_total (cl "$..")).2.1.mpr ⟨cl "..", by decide, by decide⟩⟩

/-- C9: the alias map runs before title-casing, so 'bmw' (and 'BMW')
clean to 'Bmw', not 'BMW'; since the luxury set contains 'BMW' but not
'Bmw', such a record gets is_luxury = false. -/
theorem C9_bmw_down_cased :
    clean_data 2025 [("brand", [CVal.s (cl "bmw")])] =
      .ok [("brand", [CVal.s (cl "Bmw")]), ("is_luxury", [CVal.b false])] ∧
    clean_data 2025 [("brand", [CVal.s (cl "BMW")])] =
      .ok [("brand", [CVal.s (cl "Bmw")]), ("is_luxury", [CVal.b false])] ∧
    (cl "BMW") ∈ luxury_brands ∧ (cl "Bmw") ∉ luxury_brands := by
  refine ⟨by decide, by decide, by decide, by decide⟩

/-- C10: with both price columns present, the price step computes a
flag for every aligned row; a row with either price null gets
price_flag = false (never null), and a zero price_usd still yields a
defined boolean flag (no exception). -/
theorem C10_price_flag_total (df : Batch)
    (hc : hasCol df "price_colones" = true) (hu : hasCol df "price_usd" = true) :
    (getCol (validate_prices df) "price_flag").length =
      min (getCol df "price_colones").length (getCol df "price_usd").length ∧
    (∀ (i : Nat) (a b : CVal), (getCol df "price_colones")[i]? = some a →
      (getCol df "price_usd")[i]? = some b → (a = CVal.null ∨ b = CVal.null) →
      (getCol (validate_prices df) "price_flag")[i]? = some (CVal.b false)) ∧
    (∀ (i : Nat) (a : ℚ), (getCol df "price_colones")[i]? = some (CVal.n a) →
      (getCol df "price_usd")[i]? = some (CVal.n 0) →
      ∃ bb, (getCol (validate_prices df) "price_flag")[i]? = some (CVal.b bb)) := by
  unfold validate_prices
  have hcond : (hasCol df "price_colones" && hasCol df "price_usd") = true := by
    rw [hc, hu]
    rfl
  simp only [hcond, if_true]
  refine ⟨?_, ?_, ?_⟩
  · rw [getCol_setCol_self, List.length_map, List.length_zipWith]
  · intro i a b ha hb hnull
    rw [getCol_setCol_self, List.getElem?_map, List.getElem?_zipWith, ha, hb]
    have hdiv : divN a b = CVal.null := by
      rcases hnull with rfl | rfl
      · cases b <;> rfl
      · cases a <;> rfl
    simp only [hdiv]
    rfl
  · intro i a ha hb
    rw [getCol_setCol_self, List.getElem?_map, List.getElem?_zipWith, ha, hb]
    exact ⟨_, rfl⟩

/-- C10 witness: null rows are unflagged and a zero usd row still gets
a defined flag, on a concrete three-row batch. -/
theorem C10_price_flag_total_witness :
    (getCol (validate_prices c10df) "price_flag")[0]? = some (CVal.b false) ∧
    (getCol (validate_prices c10df) "price_flag")[1]? = some (CVal.b false) ∧
    (∃ bb, (getCol (validate_prices c10df) "price_flag")[2]? = some (CVal.b bb)) ∧
    (getCol (validate_prices c10df) "price_flag").length = 3 := by
  have h := C10_price_flag_total c10df (by decide) (by decide)
  refine ⟨?_, ?_, h.2.2 2 1 (by decide) (by decide), ?_⟩
  · exact h.2.1 0 CVal.null (CVal.n 3) (by decide) (by decide) (Or.inl rfl)
  · exact h.2.1 1 (CVal.n 5) CVal.null (by decide) (by decide) (Or.inr rfl)
  · rw [h.1]
    decide

end Claims
